import Mathlib

/-!
Verification of the ESN-Pulse crawl-and-extract pipeline.

Shallow embedding, in Lean 4, of the parts of the ESN-Pulse source that the
specification's testable properties talk about: the chunk planner, the HTTP
client's 404 handling, the chunk page loop, the pagination analyzers, the
extraction utilities, the validation gate, the scheduling query and the
upsert operations.  Python integers are modelled as `Nat`/`Int`, fallible
code returns `Option`/`Except`, and BeautifulSoup documents are modelled as
finite selector tables (`Soup`).
-/

namespace ESN

/-! ## Python primitives

Small executable models of the Python standard-library behaviour the
source relies on: `int(...)` parsing, digit filtering, substring search. -/

/-- Value of a list of decimal digit characters, most significant first. -/
def digitsVal (l : List Char) : Nat :=
  l.foldl (fun a c => 10 * a + (c.toNat - 48)) 0

/-- Parse a nonempty all-digit character list, as Python `int` does after
sign stripping; `none` models `ValueError`. -/
def pyIntOfDigits? (l : List Char) : Option Nat :=
  if l ≠ [] ∧ l.all Char.isDigit then some (digitsVal l) else none

/-- Model of Python `str.strip()` on a character list: drop whitespace
from both ends. -/
def pyTrim (l : List Char) : List Char :=
  (((l.dropWhile Char.isWhitespace).reverse.dropWhile Char.isWhitespace).reverse)

/-- Model of Python `int(s)`: strip surrounding whitespace, allow one
optional sign, then require at least one decimal digit.  `none` models a
raised `ValueError`. -/
def pyParseInt (s : String) : Option Int :=
  match pyTrim s.toList with
  | [] => none
  | c :: rest =>
    if c = '-' then (pyIntOfDigits? rest).map (fun n => -(Int.ofNat n))
    else if c = '+' then (pyIntOfDigits? rest).map (fun n => Int.ofNat n)
    else (pyIntOfDigits? (c :: rest)).map (fun n => Int.ofNat n)

/-- Model of Python substring containment (`pat in s` on char lists). -/
def containsSub (pat : List Char) : List Char → Bool
  | [] => pat.isEmpty
  | c :: t => pat.isPrefixOf (c :: t) || containsSub pat t

/-- Model of Python `pat in s` for strings. -/
def strContains (s pat : String) : Bool :=
  containsSub pat.toList s.toList

/-- Fuel-driven splitter underlying `pySplit`; the fuel is at least the
input length, so the zero-fuel branch is unreachable in `pySplit`. -/
def splitOnAux (sep : List Char) : Nat → List Char → List Char → List (List Char)
  | 0, acc, rest => [acc.reverse ++ rest]
  | _fuel+1, acc, [] => [acc.reverse]
  | fuel+1, acc, c :: t =>
    if sep.isPrefixOf (c :: t) then
      acc.reverse :: splitOnAux sep fuel [] (List.drop sep.length (c :: t))
    else
      splitOnAux sep fuel (c :: acc) t

/-- Model of Python `s.split(sep)` for a non-empty separator. -/
def pySplit (s sep : String) : List String :=
  if sep.toList.isEmpty then [s]
  else (splitOnAux sep.toList (s.toList.length + 1) [] s.toList).map
    (fun l => String.mk l)

/-- Model of Python `s.split(sep)[-1]` (the list is never empty). -/
def pySplitLast (s sep : String) : String :=
  ((pySplit s sep).getLast?).getD s

/-- Model of Python `s.split(sep)[0]` (the list is never empty). -/
def pySplitHead (s sep : String) : String :=
  ((pySplit s sep).head?).getD s

/-- Model of `re.sub(r'[^0-9]', '', value)`: keep only the decimal digit
characters, in order. -/
def stripNonDigits (s : String) : String :=
  String.mk (s.toList.filter Char.isDigit)

/-- Model of Python `str.lower()` (character-wise). -/
def pyLower (s : String) : String :=
  String.mk (s.toList.map Char.toLower)

/-! ## Chunk Planner

`create_chunks` from `src/scrapers/parsers/activity_parser.py` (lines
252-256):

    chunks = [(i, min(i + chunk_size - 1, last_page))
              for i in range(0, last_page + 1, chunk_size)]

`range(0, last_page + 1, chunk_size)` has `⌈(last_page+1)/chunk_size⌉ =
(last_page + chunk_size) / chunk_size` elements when `chunk_size ≥ 1`,
namely `0, chunk_size, 2*chunk_size, ...`. -/

/-- Shallow embedding of `create_chunks(last_page, chunk_size)`. -/
def create_chunks (last_page : Nat) (chunk_size : Nat) : List (Nat × Nat) :=
  (List.range' 0 ((last_page + chunk_size) / chunk_size) chunk_size).map
    (fun i => (i, min (i + chunk_size - 1) last_page))

/-- Membership of page `p` in an inclusive chunk range. -/
def inChunk (p : Nat) (ch : Nat × Nat) : Bool :=
  ch.1 ≤ p && p ≤ ch.2

/-! ## Validation Gate

`validate_scraping_data` from
`src/scrapers/validators/account_validator.py` (lines 42-83).  The float
thresholds `0.7` and `0.1` are modelled as exact rationals. -/

/-- The run-report fields read by `validate_scraping_data`:
`countries_processed`, `sections_processed`, `sections_validated` and the
length of the `errors` list. -/
structure ScrapeData where
  countries_processed : Nat
  sections_processed : Nat
  sections_validated : Nat
  errors : Nat
deriving DecidableEq

/-- Shallow embedding of `validate_scraping_data`: reject when fewer than
40 countries or 400 sections were processed, when the validation rate is
below 0.7, or when the error count exceeds 10 percent of the processed
count. -/
def validate_scraping_data (d : ScrapeData) : Bool :=
  if d.countries_processed < 40 then false
  else if d.sections_processed < 400 then false
  else if 0 < d.sections_processed ∧
      (d.sections_validated : ℚ) / (d.sections_processed : ℚ) < 7/10 then false
  else if (d.errors : ℚ) > (d.sections_processed : ℚ) * (1/10) then false
  else true

/-! ## Numeric field extraction

`ensure_integer` from `src/scraping/utils/extraction_utils.py` (lines
40-65), string case, and the participants parsing inside
`parse_activity_details` (`src/scrapers/parsers/activity_parser.py`,
lines 160-171). -/

/-- Shallow embedding of `ensure_integer(value)` for a string argument:
strip the non-digit characters, then `int(...)`, with 0 as the default
when no digits remain or parsing fails. -/
def ensure_integer (s : String) : Int :=
  let numeric_str := stripNonDigits s
  if numeric_str ≠ "" then
    match pyParseInt numeric_str with
    | some n => n
    | none => 0
  else 0

/-- Participants parsing inside `parse_activity_details`:
`int(re.sub(r'[^\d]', '', participants_text))` with the `ValueError`
caught and turned into 0. -/
def participantsFromText (t : String) : Int :=
  match pyParseInt (stripNonDigits t) with
  | some n => n
  | none => 0

/-! ## Document model

BeautifulSoup documents are modelled as finite tables from CSS selector
strings to the lists of elements they match; `select` and `selectOne`
mirror `soup.select` and `soup.select_one`. -/

/-- An HTML element: its stripped text and its attribute list. -/
structure Element where
  text : String
  attrs : List (String × String)
deriving DecidableEq

/-- Model of `element[key]` lookup: the first binding of the attribute,
if any; `none` models a `KeyError` for the subscript form. -/
def Element.attr? (e : Element) (k : String) : Option String :=
  ((e.attrs.find? (fun kv => kv.1 == k)).map (fun kv => kv.2))

/-- Model of `element.get(key, default)`. -/
def Element.getAttr (e : Element) (k d : String) : String :=
  (e.attr? k).getD d

/-- A parsed document: the elements each CSS selector matches. -/
structure Soup where
  table : List (String × List Element)
deriving DecidableEq

/-- Model of `soup.select(q)`: all elements matching selector `q`. -/
def Soup.select (s : Soup) (q : String) : List Element :=
  (((s.table.find? (fun e => e.1 == q)).map (fun e => e.2))).getD []

/-- Model of `soup.select_one(q)`: the first element matching `q`. -/
def Soup.selectOne (s : Soup) (q : String) : Option Element :=
  (s.select q).head?

/-! ## Pagination analyzers

`find_last_page_number` from `src/scrapers/parsers/activity_parser.py`
(lines 55-68) and `get_total_pages` from
`src/scrapers/activities_statistics_scraper.py` (lines 231-264), the
latter applied to the already-fetched-and-parsed first page. -/

/-- `ACTIVITY_SELECTORS["last_page"]` from
`src/scrapers/constants/activity_selectors.py` line 47. -/
def last_page_selector : String := "a[title='Go to last page']"

/-- `activity_selectors["pagination_last"]` from
`src/scrapers/activities_statistics_scraper.py` line 59. -/
def pagination_last_selector : String := ".pager__item--last a"

/-- Href parsing used by `find_last_page_number` (line 60):
`int(last_page_link['href'].split('=')[-1])`.  `none` models the caught
exception path (missing `href` attribute, or `ValueError`). -/
def parseLastPageHref (href : Option String) : Option Int :=
  match href with
  | none => none
  | some h => pyParseInt (pySplitLast h "=")

/-- Href parsing used by `get_total_pages` (lines 252-258):
`int(href.split('page=')[-1].split('&')[0])` guarded by
`'page=' in href`; `none` models either a failed guard or a caught
`ValueError`. -/
def parsePageParam (href : String) : Option Int :=
  if strContains href "page=" then
    pyParseInt (pySplitHead (pySplitLast href "page=") "&")
  else none

/-- Shallow embedding of `find_last_page_number(soup)`: 0 when the
last-page link is absent or any parse step raises, otherwise the page
number parsed from the link href. -/
def find_last_page_number (soup : Soup) : Int :=
  match soup.selectOne last_page_selector with
  | none => 0
  | some link => (parseLastPageHref (link.attr? "href")).getD 0

/-- Shallow embedding of `get_total_pages` on the parsed first page: 1
when the pagination link is absent or parsing fails, otherwise the
parsed last page number plus one. -/
def get_total_pages (soup : Soup) : Int :=
  match soup.selectOne pagination_last_selector with
  | none => 1
  | some link =>
    ((parsePageParam (link.getAttr "href" "")).map
      (fun last_page => last_page + 1)).getD 1

/-! ## Scheduling queries

`get_sections_to_scrape` and `get_sections_by_last_scraped` from
`src/database/operations.py` (lines 319-336 and 354-370): SQL
`ORDER BY last_scraped ASC NULLS FIRST` with an optional `LIMIT`,
modelled as sorting by the null-first staleness order. -/

/-- The section columns the scheduling queries read:
`can_scrape_activities` and the `last_scraped` timestamp (`none` models
SQL NULL). -/
structure SectionRow where
  id : Nat
  can_scrape_activities : Bool
  last_scraped : Option Nat
deriving DecidableEq

/-- The `ORDER BY last_scraped ASC NULLS FIRST` key order: NULL before
every timestamp, timestamps ascending. -/
def stalenessLEb (a b : SectionRow) : Bool :=
  match a.last_scraped, b.last_scraped with
  | none, _ => true
  | some _, none => false
  | some x, some y => x ≤ y

/-- Propositional form of the staleness order. -/
def stalenessLE (a b : SectionRow) : Prop :=
  stalenessLEb a b = true

instance : DecidableRel stalenessLE :=
  fun a b => inferInstanceAs (Decidable (stalenessLEb a b = true))

instance : IsTotal SectionRow stalenessLE where
  total a b := by
    unfold stalenessLE stalenessLEb
    rcases a with ⟨ia, ca, la⟩
    rcases b with ⟨ib, cb, lb⟩
    rcases la with _ | x <;> rcases lb with _ | y <;> simp <;> omega

instance : IsTrans SectionRow stalenessLE where
  trans a b c hab hbc := by
    unfold stalenessLE stalenessLEb at *
    rcases a with ⟨ia, ca, la⟩
    rcases b with ⟨ib, cb, lb⟩
    rcases c with ⟨ic, cc, lc⟩
    rcases la with _ | x <;> rcases lb with _ | y <;> rcases lc with _ | z <;>
      simp_all <;> omega

/-- Shallow embedding of `get_sections_to_scrape(limit)`: the sections
with `can_scrape_activities = TRUE`, ordered by `last_scraped ASC NULLS
FIRST`, optionally limited. -/
def get_sections_to_scrape (rows : List SectionRow) (limit : Option Nat) :
    List SectionRow :=
  match limit with
  | some k => (List.insertionSort stalenessLE
      (rows.filter (fun s => s.can_scrape_activities))).take k
  | none => List.insertionSort stalenessLE
      (rows.filter (fun s => s.can_scrape_activities))

/-- Shallow embedding of `get_sections_by_last_scraped(limit)`: all
sections ordered by `last_scraped ASC NULLS FIRST`, optionally limited. -/
def get_sections_by_last_scraped (rows : List SectionRow) (limit : Option Nat) :
    List SectionRow :=
  match limit with
  | some k => (List.insertionSort stalenessLE rows).take k
  | none => List.insertionSort stalenessLE rows

/-! ## Persistence: the activity upsert

`insert_activity` from `src/database/operations.py` (lines 125-171):
`INSERT ... ON CONFLICT (event_slug) DO UPDATE SET <all mutable
columns> = EXCLUDED.<column>`, modelled as an operation on a table of
rows whose conflict target is the `event_slug` column. -/

/-- The columns of the `activities` insert. -/
structure ActivityRow where
  event_slug : String
  url : String
  title : String
  description : String
  start_date : Nat
  end_date : Option Nat
  is_future_event : Bool
  city : Option String
  country_code : Option String
  participants : Int
  activity_type : Option String
  is_valid : Bool
deriving DecidableEq

/-- Whether a stored row conflicts with natural key `slug`. -/
def slugMatch (slug : String) (row : ActivityRow) : Bool :=
  row.event_slug == slug

/-- The `DO UPDATE SET` clause: every mutable column takes the incoming
(`EXCLUDED`) value; the conflict key `event_slug` is left as stored. -/
def updateRow (old incoming : ActivityRow) : ActivityRow :=
  { event_slug := old.event_slug
    url := incoming.url
    title := incoming.title
    description := incoming.description
    start_date := incoming.start_date
    end_date := incoming.end_date
    is_future_event := incoming.is_future_event
    city := incoming.city
    country_code := incoming.country_code
    participants := incoming.participants
    activity_type := incoming.activity_type
    is_valid := incoming.is_valid }

/-- Shallow embedding of `insert_activity`: append the record, or on an
`event_slug` conflict overwrite the conflicting row's mutable columns. -/
def insert_activity (table : List ActivityRow) (r : ActivityRow) :
    List ActivityRow :=
  if table.any (slugMatch r.event_slug) then
    table.map (fun row =>
      if slugMatch r.event_slug row then updateRow row r else row)
  else table ++ [r]

/-! ## Text cleaning and location extraction

`clean_html_text`, `clean_text`, `ensure_value` and `extract_location`
from `src/scraping/utils/extraction_utils.py` (lines 10-38, 169-213 and
254-284).  Python's `html.unescape` is an external library call and is
taken as a parameter. -/

/-- Scan for the `>` closing a `<[^>]+>` tag run: the characters after
the first `>`, provided at least one non-`>` character precedes it. -/
def tagCloseGo : List Char → Option (List Char)
  | [] => none
  | c :: t => if c = '>' then some t else tagCloseGo t

/-- One-or-more non-`>` characters then `>`: `none` when the very next
character is `>` or no `>` follows. -/
def tagClose? : List Char → Option (List Char)
  | [] => none
  | c :: t => if c = '>' then none else tagCloseGo t

/-- Model of `re.sub(r'<[^>]+>', ' ', text)`: left-to-right, replace each
tag match with one space.  Fuel-driven (the fuel is at least the input
length, so the zero-fuel branch is unreachable). -/
def removeTagsAux : Nat → List Char → List Char
  | 0, l => l
  | _f+1, [] => []
  | f+1, c :: t =>
    if c = '<' then
      match tagClose? t with
      | some rest => ' ' :: removeTagsAux f rest
      | none => c :: removeTagsAux f t
    else c :: removeTagsAux f t

/-- Model of `re.sub(r'\s+', ' ', text)`: collapse each whitespace run
into a single space (`prevWs` tracks an open run). -/
def collapseWsAux (prevWs : Bool) : List Char → List Char
  | [] => []
  | c :: t =>
    if c.isWhitespace then
      if prevWs then collapseWsAux true t else ' ' :: collapseWsAux true t
    else c :: collapseWsAux false t

/-- Shallow embedding of `clean_html_text(text, preserve_special_chars)`:
unescape entities (the `unescape` oracle), strip tag runs, map the
escape characters to spaces, collapse whitespace, optionally drop
non-word characters, and strip. -/
def clean_html_text (unescape : String → String) (preserve : Bool)
    (text : String) : String :=
  if text = "" then text
  else
    let l1 := (unescape text).toList
    let l2 := removeTagsAux l1.length l1
    let l3 := l2.map (fun c =>
      if c = Char.ofNat 10 ∨ c = Char.ofNat 9 ∨ c = Char.ofNat 13 then ' '
      else c)
    let l4 := collapseWsAux false l3
    let l5 := if preserve then l4
      else l4.filter (fun c => c.isAlphanum || c = '_' || c.isWhitespace)
    String.mk (pyTrim l5)

/-- Shallow embedding of `clean_text(text)`:
`clean_html_text(text, preserve_special_chars=False)`. -/
def clean_text (unescape : String → String) (text : String) : String :=
  clean_html_text unescape false text

/-- Shallow embedding of `ensure_value(value, default)` for a string
value: the default replaces `None`, empty or whitespace-only strings,
and strings containing `not found` or `unknown` case-insensitively. -/
def ensure_value (value : Option String) (dflt : String) : String :=
  match value with
  | none => dflt
  | some v =>
    if pyTrim v.toList = [] then dflt
    else if v.toList.length = 0 then dflt
    else if strContains (pyLower v) "not found" ||
        strContains (pyLower v) "unknown" then dflt
    else v

/-- The parts of a detail document `extract_location` inspects: whether
the online-portal icon (`icon_portal_color.png`) is present; when it is,
the texts of the platform spans (`none` models an `AttributeError` while
navigating `find_parent('div').find(...).find_all('span')`); and the
texts of the physical location spans (`none` models the location div
being absent). -/
structure LocationDoc where
  online_icon : Bool
  platform_spans : Option (List String)
  physical_spans : Option (List String)

/-- Shallow embedding of `extract_location(soup)`: online activities take
the cleaned first platform span as city (falling back to `Online`) and
`Online` as country; physical activities take the first two location
spans; both results then pass through `ensure_value`. -/
def extract_location (unescape : String → String) (d : LocationDoc) :
    String × String :=
  let cityCountry :=
    if d.online_icon then
      match d.platform_spans with
      | none => ("Online", "Online")
      | some spans =>
        (match spans with
         | [] => "Online"
         | t :: _ => clean_text unescape t, "Online")
    else
      match d.physical_spans with
      | none => ("Location unknown", "Country unknown")
      | some spans =>
        ((match spans.head? with
          | some t => clean_text unescape t
          | none => "Location unknown"),
         (match spans.drop 1 with
          | t :: _ => clean_text unescape t
          | [] => "Country unknown"))
  (ensure_value (some cityCountry.1) "Location unknown",
   ensure_value (some cityCountry.2) "Country unknown")

/-! ## HTTP fetch and the chunk page loop

`ESNHTTPClient.get_with_retry` with `_check_response` from
`src/utils/http_client.py` (lines 137-203 and 266-292),
`BaseScraper.get_page_content` and `parse_html` from
`src/scrapers/base_scraper.py` (lines 74-153), and
`extract_activities_chunk` from
`src/scrapers/extractors/activity_extractor.py` (lines 69-101).
Retries are collapsed: an `HttpResponse` models the stable outcome of
requesting a page. -/

/-- An HTTP response: status code and body text. -/
structure HttpResponse where
  status : Nat
  body : String
deriving DecidableEq

/-- The distinguished errors of the fetch path: `RateLimitError`,
`CloudflareError`, and the `ScrapingError` of the base scraper. -/
inductive FetchError where
  | rateLimit
  | cloudflare
  | scraping
deriving DecidableEq

/-- Shallow embedding of `_check_response`: 429 raises `RateLimitError`;
403 with a Cloudflare body raises `CloudflareError`. -/
def check_response (r : HttpResponse) : Except FetchError Unit :=
  if r.status = 429 then .error .rateLimit
  else if r.status = 403 ∧ strContains (pyLower r.body) "cloudflare" = true then
    .error .cloudflare
  else .ok ()

/-- The body text `get_with_retry` returns when it does not raise: the
body for 200 and other statuses, the explicit empty string for 404. -/
def responseContent (r : HttpResponse) : String :=
  if r.status = 200 then r.body
  else if r.status = 404 then ""
  else r.body

/-- Shallow embedding of `get_with_retry`: raise the blocking-signal
errors, otherwise return the content (with 404 yielding the explicit
empty result used as the pagination-termination signal). -/
def get_with_retry (r : HttpResponse) : Except FetchError String :=
  match check_response r with
  | .error e => .error e
  | .ok _ => .ok (responseContent r)

/-- Model of `soup.find('html')` finding an element in the content. -/
def hasHtmlElement (content : String) : Bool :=
  strContains (pyLower content) "<html"

/-- Shallow embedding of `BaseScraper.parse_html`: content without an
`<html>` element raises `ScrapingError` (an empty 404 body hits this);
`soupOf` is the BeautifulSoup parse, taken as a parameter. -/
def parse_html (soupOf : String → Soup) (content : String) :
    Except FetchError Soup :=
  if hasHtmlElement content then .ok (soupOf content) else .error .scraping

/-- Shallow embedding of `BaseScraper.get_page_content`: `get_with_retry`
with every raised error re-raised (after exhausted retries) as
`ScrapingError`. -/
def get_page_content (r : HttpResponse) : Except FetchError String :=
  match get_with_retry r with
  | .ok c => .ok c
  | .error _ => .error .scraping

/-- The page loop of `extract_activities_chunk` over the listed pages:
fetch, parse, extract, accumulate; a raised error is caught by the
chunk-level `except` and the records accumulated so far are returned. -/
def extract_chunk_go {A : Type} (respOf : Nat → HttpResponse)
    (soupOf : String → Soup) (extractPage : Soup → List A) :
    List Nat → List A → List A
  | [], acc => acc
  | p :: rest, acc =>
    match get_page_content (respOf p) with
    | .error _ => acc
    | .ok content =>
      match parse_html soupOf content with
      | .error _ => acc
      | .ok soup =>
        extract_chunk_go respOf soupOf extractPage rest
          (acc ++ extractPage soup)

/-- Shallow embedding of `extract_activities_chunk(start_page, end_page)`:
the loop `for page_num in range(start_page, end_page + 1)` with the
chunk-level exception handler; `extractPage` stands for
`extract_activities_from_page` on the parsed page. -/
def extract_activities_chunk {A : Type} (respOf : Nat → HttpResponse)
    (soupOf : String → Soup) (extractPage : Soup → List A)
    (start_page end_page : Nat) : List A :=
  extract_chunk_go respOf soupOf extractPage
    (List.range' start_page (end_page + 1 - start_page)) []

/-! ## Detail-page record extraction

`parse_activity_details` from `src/scrapers/parsers/activity_parser.py`
(lines 100-250), its selectors from
`src/scrapers/constants/activity_selectors.py`, and the pydantic
`ActivityModel` validation from `src/models/activity.py`.  External
library behaviour is parameterised: `isHttpUrl` for pydantic `HttpUrl`
parsing, `strptime` for `datetime.strptime` (dates as day ordinals).
`COUNTRY_MAPPING` is imported from
`src/scrapers/constants/country_mappings.py`, a file that is not in the
repository snapshot; it is passed as an abstract lookup table. -/

def sel_title_primary : String := ".block--eg-activities-theme-page-title h1 span"

def sel_title_fallback : String := "h1"

def sel_description : List String :=
  [".ct-physical-activity__field-ct-act-description .field__item",
   ".activity__field-ct-act-description .field__item"]

def sel_dates_primary : String :=
  ".field-top-wrapper.ct-physical-activity__field-ct-act-dates .highlight-data-text span"

def sel_dates_fallback : String := ".highlight-dates-single span"

def sel_location : List String :=
  [".field-top-wrapper.ct-physical-activity__field-ct-act-location .highlight-data-text span",
   ".field-top-wrapper.activity__field-ct-act-location .highlight-data-text span",
   ".highlight-data-text span"]

def sel_participants_primary : String := ".highlight-data-text-big"

def sel_participants_fallback : String := ".highlight-data-number .highlight-data-text-big"

def sel_activity_type_primary : String := ".ct-physical-activity__field-ct-act-types .field__item a"

def sel_activity_type_fallback : String := ".activity-types .activity-type a"

def sel_organisers_primary : String := ".pseudo__items.pseudo__organisers a"

def sel_organisers_fallback : String := ".pseudo__organisers .pseudo__organiser a"

def sel_causes_primary : String := ".activity-cause a"

def sel_causes_fallback : String := ".activity-causes .activity-label a"

def sel_sdgs : String := ".field-sdgs-wrapper img"

def sel_objectives : String := ".activity__objectives .field__item span"

/-- Shallow embedding of `get_text_safely(element, default)`. -/
def get_text_safely (e : Option Element) (dflt : String) : String :=
  match e with
  | some el => el.text
  | none => dflt

/-- The six `strptime` formats tried by `parse_date_safely`, in order. -/
def date_formats : List String :=
  ["%Y-%m-%dT%H:%M:%SZ", "%d/%m/%Y", "%d %b %Y", "%d-%m-%Y", "%Y-%m-%d",
   "%B %d, %Y"]

/-- Result triple of `parse_date_safely`. -/
structure DateInfo where
  start_date : Option Nat
  end_date : Option Nat
  is_future_event : Bool

/-- Shallow embedding of `parse_date_safely(date_str)`: empty input or no
parsing format yields the empty result; the first format that parses
fixes both dates and the future flag. -/
def parse_date_safely (strptime : String → String → Option Nat)
    (today : Nat) (date_str : String) : DateInfo :=
  if date_str = "" then ⟨none, none, false⟩
  else
    match date_formats.findSome? (fun fmt => strptime fmt date_str) with
    | some d => ⟨some d, some d, decide (today < d)⟩
    | none => ⟨none, none, false⟩

/-- The record type built by `parse_activity_details` (the fields of
pydantic `ActivityModel` the parser fills; extra constructor keyword
arguments such as `activity_goal` are ignored by pydantic). -/
structure Activity where
  event_slug : String
  url : String
  title : String
  description : String
  start_date : Nat
  end_date : Option Nat
  city : Option String
  country_code : Option String
  participants : Int
  activity_type : Option String
  is_future_event : Bool
  organisers : List String
  causes : List String
  sdgs : List String
  objectives : List String
  is_valid : Bool
deriving DecidableEq

/-- Model of Python `str.upper()` (character-wise). -/
def pyUpper (s : String) : String :=
  String.mk (s.toList.map Char.toUpper)

/-- Model of `' '.join(v.split())` after `v.strip()`: trim, then collapse
inner whitespace runs to single spaces. -/
def stripJoin (s : String) : String :=
  String.mk (collapseWsAux false (pyTrim s.toList))

/-- The list-field validator of `ActivityModel`: strip items, drop empty
ones, deduplicate keeping first occurrences. -/
def cleanListValidator (l : List String) : List String :=
  (l.foldl (fun acc item =>
    let it := String.mk (pyTrim item.toList)
    if it ≠ "" ∧ ¬ (acc.contains it) then it :: acc else acc) []).reverse

/-- Order-preserving model of Python `list(set(...))` on strings (the
set order itself is unspecified; the model keeps first occurrences). -/
def dedupe (l : List String) : List String :=
  (l.foldl (fun acc it => if acc.contains it then acc else it :: acc) []).reverse

/-- Order-preserving model of Python `list(set(...))` on numbers. -/
def dedupeNat (l : List Nat) : List Nat :=
  (l.foldl (fun acc it => if acc.contains it then acc else it :: acc) []).reverse

/-- The constraint part of the `country_code` validator: at most 10
characters, and a nonempty value must normalise (upper, strip) to 2-3
alphabetic characters. -/
def countryOk (country_code : Option String) : Bool :=
  match country_code with
  | none => true
  | some v =>
    v.length ≤ 10 &&
      (v == "" ||
        (let u := String.mk (pyTrim (pyUpper v).toList)
         (u.length = 2 ∨ u.length = 3) && u.toList ≠ [] &&
           u.toList.all Char.isAlpha))

/-- The `country_code` value after the validator (upper, strip), when
`countryOk` holds. -/
def countryVal (country_code : Option String) : Option String :=
  match country_code with
  | none => none
  | some v =>
    if v ≠ "" then some (String.mk (pyTrim (pyUpper v).toList)) else some v

/-- Shallow embedding of the pydantic `ActivityModel` constructor as
called by `parse_activity_details` (pydantic v1 semantics: field
constraints, the `@validator`s of `src/models/activity.py`, and the
`is_valid` default of `True`; `none` models a raised `ValidationError`).
The passed `is_future_event` is recomputed by the `always=True`
validator from `start_date`, so the argument itself is unused. -/
def mkActivityModel (isHttpUrl : String → Bool) (today : Nat)
    (event_slug url title description : String) (start_date : Nat)
    (end_date : Option Nat) (city country_code : Option String)
    (participants : Int) (activity_type : Option String)
    (_is_future_event : Bool)
    (organisers causes sdgs objectives : List String) : Option Activity :=
  if (1 ≤ event_slug.length && event_slug.length ≤ 255) &&
      (let slug := String.mk (pyTrim (pyLower event_slug).toList)
       let slugBody := slug.toList.filter (fun c => ¬ (c = '-' ∨ c = '_'))
       slug == "" || (slugBody ≠ [] && slugBody.all Char.isAlphanum)) &&
      isHttpUrl url &&
      (1 ≤ title.length && title.length ≤ 255) &&
      (1 ≤ description.length) &&
      (¬ (stripJoin description).length < 10) &&
      end_date.all (fun e => start_date ≤ e) &&
      city.all (fun c => c.length ≤ 100) &&
      countryOk country_code &&
      (¬ participants < 0) && (¬ participants > 10000) &&
      activity_type.all (fun t => t.length ≤ 100) then
    some
      { event_slug := String.mk (pyTrim (pyLower event_slug).toList)
        url := url
        title := stripJoin title
        description := stripJoin description
        start_date := start_date
        end_date := end_date
        city := city
        country_code := countryVal country_code
        participants := participants
        activity_type := activity_type
        is_future_event := decide (today < start_date)
        organisers := cleanListValidator organisers
        causes := cleanListValidator causes
        sdgs := cleanListValidator sdgs
        objectives := cleanListValidator objectives
        is_valid := true }
  else none

/-- First selector of the list whose `select_one` finds an element: its
text. -/
def firstSelText (soup : Soup) : List String → Option String
  | [] => none
  | sel :: rest =>
    match soup.selectOne sel with
    | some e => some e.text
    | none => firstSelText soup rest

/-- First selector of the list whose `select` finds elements: those
elements (the loop leaves an empty list when none match). -/
def firstSelList (soup : Soup) : List String → List Element
  | [] => []
  | sel :: rest =>
    match soup.select sel with
    | [] => firstSelList soup rest
    | l => l

/-- Lookup in the name→code table (`COUNTRY_MAPPING.get(name, 'XX')`
without the default). -/
def lookupStr (m : List (String × String)) (k : String) : Option String :=
  (m.find? (fun kv => kv.1 == k)).map (fun kv => kv.2)

/-- The SDG number in an `alt` text, as matched by
`re.search(r'(?:Goal|SDG)\s+(\d+)', alt, re.IGNORECASE)`: scan
left-to-right for `goal` or `sdg` (case-insensitive) followed by
whitespace then digits. -/
def sdgNum? (alt : String) : Option Nat :=
  sdgScan (pyLower alt).toList
where
  keywordRest (l : List Char) : Option (List Char) :=
    if ("goal".toList).isPrefixOf l then some (l.drop 4)
    else if ("sdg".toList).isPrefixOf l then some (l.drop 3)
    else none
  afterWsDigits (l : List Char) : Option Nat :=
    if (l.takeWhile Char.isWhitespace) = [] then none
    else
      let rest := l.dropWhile Char.isWhitespace
      let ds := rest.takeWhile Char.isDigit
      if ds = [] then none else some (digitsVal ds)
  sdgScan : List Char → Option Nat
    | [] => none
    | c :: t =>
      match keywordRest (c :: t) with
      | some rest =>
        match afterWsDigits rest with
        | some n => some n
        | none => sdgScan t
      | none => sdgScan t

/-- Shallow embedding of `parse_activity_details(soup, url, event_slug)`:
field-by-field extraction with primary/fallback selectors and defaults,
then the pydantic `ActivityModel` construction; `none` models the caught
exception path (in the model, only a `ValidationError`). -/
def parse_activity_details (isHttpUrl : String → Bool)
    (strptime : String → String → Option Nat) (today : Nat)
    (country_mapping : List (String × String))
    (soup : Soup) (url : String) (event_slug : String) : Option Activity :=
  let title_elem := match soup.selectOne sel_title_primary with
    | some e => some e
    | none => soup.selectOne sel_title_fallback
  let title := get_text_safely title_elem "Unknown Activity"
  let description :=
    (firstSelText soup sel_description).getD "No description available"
  let date_elements := match soup.select sel_dates_primary with
    | [] => soup.select sel_dates_fallback
    | l => l
  let sdi :=
    match date_elements with
    | [] => (today, some today, false)
    | e1 :: rest =>
      let d0 := parse_date_safely strptime today e1.text
      let end1 := match rest with
        | [] => d0.end_date
        | e2 :: _ =>
          match (parse_date_safely strptime today e2.text).start_date with
          | some d => some d
          | none => d0.end_date
      match d0.start_date with
      | none => (today, some today, false)
      | some sd => (sd, end1, d0.is_future_event)
  let location_elements := firstSelList soup sel_location
  let cityCc :=
    match location_elements with
    | [] => ("Unknown", "XX")
    | e1 :: rest =>
      (if e1.text ≠ "" then e1.text else "Unknown",
       match rest with
       | [] => "XX"
       | e2 :: _ => (lookupStr country_mapping e2.text).getD "XX")
  let participants_element := match soup.selectOne sel_participants_primary with
    | some e => some e
    | none => soup.selectOne sel_participants_fallback
  let participants := match participants_element with
    | some e => participantsFromText e.text
    | none => 0
  let activity_type_elem := match soup.selectOne sel_activity_type_primary with
    | some e => some e
    | none => soup.selectOne sel_activity_type_fallback
  let activity_type := get_text_safely activity_type_elem ""
  let organiser_elems := match soup.select sel_organisers_primary with
    | [] => soup.select sel_organisers_fallback
    | l => l
  let organisers := (organiser_elems.map (fun a => a.text)).filter
    (fun t => t ≠ "")
  let cause_elems := match soup.select sel_causes_primary with
    | [] => soup.select sel_causes_fallback
    | l => l
  let causes := dedupe ((cause_elems.map (fun a => a.text)).filter
    (fun t => t ≠ ""))
  let sdg_elements := soup.select sel_sdgs
  let sdgs := List.insertionSort (fun a b => a ≤ b)
    (dedupeNat ((sdg_elements.filterMap
      (fun img => sdgNum? (img.getAttr "alt" ""))).filter
        (fun n => 1 ≤ n && n ≤ 17)))
  let objective_elems := soup.select sel_objectives
  let objectives := dedupe ((objective_elems.map (fun e => e.text)).filter
    (fun t => t ≠ ""))
  mkActivityModel isHttpUrl today event_slug url title description sdi.1
    sdi.2.1 (some cityCc.1) (some cityCc.2) participants
    (if activity_type ≠ "" then some activity_type else none)
    sdi.2.2 organisers causes (sdgs.map Nat.repr) objectives

/-! ## Theorems -/

/-- Recursive characterisation of the chunk plan: the first chunk is
`(0, min (c-1) n)`, and the remaining chunks are the plan for the pages
beyond the first chunk, shifted up by `c`. -/
theorem create_chunks_eq (n c : Nat) (hc : 0 < c) :
    create_chunks n c = (0, min (c - 1) n) ::
      (if c ≤ n then (create_chunks (n - c) c).map (fun ab => (ab.1 + c, ab.2 + c))
       else []) := by
  by_cases h : c ≤ n
  · rw [if_pos h]
    unfold create_chunks
    have hk : (n + c) / c = ((n - c) + c) / c + 1 := by
      rw [Nat.sub_add_cancel h, Nat.add_div_right n hc]
    rw [hk, List.range'_succ, List.map_cons, List.map_map]
    simp only [Nat.zero_add]
    congr 1
    have hmap : List.range' c (((n - c) + c) / c) c =
        (List.range' 0 (((n - c) + c) / c) c).map (fun i => c + i) := by
      rw [List.map_add_range', Nat.add_zero]
    rw [hmap, List.map_map]
    apply List.map_congr_left
    intro i _
    simp only [Function.comp_apply, Prod.mk.injEq]
    constructor
    · omega
    · omega
  · rw [if_neg h]
    unfold create_chunks
    have hk : (n + c) / c = 1 := by
      rw [Nat.add_div_right n hc, Nat.div_eq_of_lt (Nat.lt_of_not_le h)]
    rw [hk, List.range'_succ, List.map_cons]
    simp only [Nat.zero_add]
    rfl

/-- Number of chunks in the plan. -/
theorem create_chunks_length (n c : Nat) :
    (create_chunks n c).length = (n + c) / c := by
  unfold create_chunks
  rw [List.length_map, List.length_range']

/-- Every chunk of the plan is a well-formed sub-range of `0..n`. -/
theorem create_chunks_mem (n c : Nat) (hc : 0 < c) :
    ∀ ch ∈ create_chunks n c, ch.1 ≤ ch.2 ∧ ch.2 ≤ n := by
  intro ch hch
  unfold create_chunks at hch
  obtain ⟨i, hi, rfl⟩ := List.mem_map.mp hch
  obtain ⟨j, hj, rfl⟩ := List.mem_range'.mp hi
  have hjc : (j + 1) * c ≤ ((n + c) / c) * c :=
    Nat.mul_le_mul_right c hj
  have hdm : ((n + c) / c) * c ≤ n + c := Nat.div_mul_le_self (n + c) c
  have hle : (j + 1) * c ≤ n + c := Nat.le_trans hjc hdm
  have hexp : (j + 1) * c = c * j + c := by ring
  have hcj : c * j ≤ n := by omega
  refine ⟨?_, Nat.min_le_right _ _⟩
  exact le_min (by omega) (by omega)

/-- The plan always starts with a chunk whose start page is 0. -/
theorem create_chunks_head (n c : Nat) (hc : 0 < c) :
    (create_chunks n c).head? = some (0, min (c - 1) n) := by
  rw [create_chunks_eq n c hc]
  rfl

/-- Each page `p ≤ n` lies in exactly one chunk of the plan. -/
theorem create_chunks_countP (c : Nat) (hc : 0 < c) :
    ∀ n, ∀ p ≤ n, (create_chunks n c).countP (inChunk p) = 1 := by
  intro n
  induction n using Nat.strong_induction_on with
  | _ n ih =>
    intro p hp
    rw [create_chunks_eq n c hc]
    by_cases hcn : c ≤ n
    · rw [if_pos hcn]
      rw [List.countP_cons]
      by_cases hpc : p < c
      · have hhead : inChunk p (0, min (c - 1) n) = true := by
          simp only [inChunk, Bool.and_eq_true, decide_eq_true_eq]
          omega
        have htail : ((create_chunks (n - c) c).map
            (fun ab => (ab.1 + c, ab.2 + c))).countP (inChunk p) = 0 := by
          rw [List.countP_eq_zero]
          intro a ha
          obtain ⟨ab, _, rfl⟩ := List.mem_map.mp ha
          simp only [inChunk, Bool.and_eq_true, decide_eq_true_eq]
          omega
        rw [htail, hhead]
        simp
      · have hhead : inChunk p (0, min (c - 1) n) = false := by
          rw [Bool.eq_false_iff]
          simp only [ne_eq, inChunk, Bool.and_eq_true, decide_eq_true_eq]
          omega
        rw [hhead, List.countP_map]
        have hcong : ((create_chunks (n - c) c).countP
            (inChunk p ∘ (fun ab => (ab.1 + c, ab.2 + c)))) =
            ((create_chunks (n - c) c).countP (inChunk (p - c))) := by
          apply List.countP_congr
          intro ab _
          show inChunk p (ab.1 + c, ab.2 + c) = true ↔
            inChunk (p - c) ab = true
          simp only [inChunk, Bool.and_eq_true, decide_eq_true_eq]
          omega
        rw [hcong]
        have := ih (n - c) (by omega) (p - c) (by omega)
        simpa using this
    · rw [if_neg hcn]
      rw [List.countP_cons, List.countP_nil]
      have hhead : inChunk p (0, min (c - 1) n) = true := by
        simp only [inChunk, Bool.and_eq_true, decide_eq_true_eq]
        omega
      rw [hhead]
      simp

/-- No page beyond `n` lies in any chunk. -/
theorem create_chunks_countP_zero (n c : Nat) (hc : 0 < c) :
    ∀ p, n < p → (create_chunks n c).countP (inChunk p) = 0 := by
  intro p hp
  rw [List.countP_eq_zero]
  intro ch hch
  have hmem := create_chunks_mem n c hc ch hch
  simp only [inChunk, Bool.and_eq_true, decide_eq_true_eq]
  omega

/-- Adjacent chunks are contiguous: each chunk starts one page after the
previous chunk ends. -/
theorem create_chunks_chain (c : Nat) (hc : 0 < c) :
    ∀ n, List.Chain' (fun a b : Nat × Nat => b.1 = a.2 + 1)
      (create_chunks n c) := by
  intro n
  induction n using Nat.strong_induction_on with
  | _ n ih =>
    rw [create_chunks_eq n c hc]
    by_cases hcn : c ≤ n
    · rw [if_pos hcn]
      rw [List.chain'_cons']
      constructor
      · intro b hb
        have hh := create_chunks_head (n - c) c hc
        rw [List.head?_map, hh] at hb
        simp only [Option.map_some', Option.mem_def, Option.some.injEq] at hb
        rw [← hb]
        show 0 + c = min (c - 1) n + 1
        omega
      · rw [List.chain'_map]
        have := ih (n - c) (by omega)
        apply List.Chain'.imp _ this
        intro a b hab
        show b.1 + c = a.2 + c + 1
        omega
    · rw [if_neg hcn]
      exact List.chain'_singleton _

/-- C1.  For every `lastPage ≥ 0` and `chunkSize ≥ 1`, the chunk plan
`create_chunks(lastPage, chunkSize)` is an ordered list of inclusive
`(start, end)` ranges that are contiguous (each chunk starts right after
the previous one ends), non-overlapping and covering `0..lastPage`
exactly (every page in range lies in exactly one chunk, no page outside),
starting at page 0, with `⌈(lastPage+1)/chunkSize⌉` chunks; in
particular `plan(0, c) = [(0,0)]` and
`plan(12, 5) = [(0,4),(5,9),(10,12)]`. -/
theorem create_chunks_plan (n c : Nat) (hc : 1 ≤ c) :
    (create_chunks n c).length = (n + 1 + (c - 1)) / c ∧
    (∀ p ≤ n, (create_chunks n c).countP (inChunk p) = 1) ∧
    (∀ p, n < p → (create_chunks n c).countP (inChunk p) = 0) ∧
    List.Chain' (fun a b : Nat × Nat => b.1 = a.2 + 1) (create_chunks n c) ∧
    (∀ ch ∈ create_chunks n c, ch.1 ≤ ch.2 ∧ ch.2 ≤ n) ∧
    (create_chunks n c).head? = some (0, min (c - 1) n) ∧
    create_chunks 0 c = [(0, 0)] ∧
    create_chunks 12 5 = [(0, 4), (5, 9), (10, 12)] := by
  refine ⟨?_, ?_, ?_, ?_, ?_, ?_, ?_, ?_⟩
  · rw [create_chunks_length]
    congr 1
    omega
  · exact create_chunks_countP c hc n
  · exact create_chunks_countP_zero n c hc
  · exact create_chunks_chain c hc n
  · exact create_chunks_mem n c hc
  · exact create_chunks_head n c hc
  · rw [create_chunks_eq 0 c hc]
    have : ¬ c ≤ 0 := by omega
    rw [if_neg this]
    have : min (c - 1) 0 = 0 := by omega
    rw [this]
  · decide

/-- Witness for `create_chunks_plan` at `lastPage = 12`, `chunkSize = 5`:
the plan is the three chunks from the specification scenario. -/
theorem create_chunks_plan_witness :
    1 ≤ 5 ∧
    ((create_chunks 12 5).countP (inChunk 7) = 1 ∧
      (create_chunks 12 5).head? = some (0, min (5 - 1) 12)) := by
  refine ⟨by decide, ?_, ?_⟩
  · exact (create_chunks_plan 12 5 (by decide)).2.1 7 (by decide)
  · exact (create_chunks_plan 12 5 (by decide)).2.2.2.2.2.1

/-- C5.  For every run report with `processed > 0`, the Validation Gate
returns `false` whenever the validated/processed ratio is below the 0.7
threshold or the error count exceeds 0.1 times the processed count. -/
theorem validate_scraping_data_rejects (d : ScrapeData)
    (hp : 0 < d.sections_processed)
    (h : (d.sections_validated : ℚ) / (d.sections_processed : ℚ) < 7/10 ∨
      (d.errors : ℚ) > (d.sections_processed : ℚ) * (1/10)) :
    validate_scraping_data d = false := by
  unfold validate_scraping_data
  split_ifs with h1 h2 h3 h4
  · rfl
  · rfl
  · rfl
  · rfl
  · exfalso
    rcases h with h | h
    · exact h3 ⟨hp, h⟩
    · exact h4 h

/-- Witness for `validate_scraping_data_rejects`: the specification
scenario of 10 entities processed, 6 validated and 3 errors is rejected
(0.6 < 0.7, and also 3 > 1). -/
theorem validate_scraping_data_rejects_witness :
    (0 < (10 : Nat)) ∧
    ((6 : ℚ) / (10 : ℚ) < 7/10 ∨ (3 : ℚ) > (10 : ℚ) * (1/10)) ∧
    validate_scraping_data ⟨45, 10, 6, 3⟩ = false := by
  refine ⟨by norm_num, Or.inl (by norm_num), ?_⟩
  exact validate_scraping_data_rejects ⟨45, 10, 6, 3⟩ (by norm_num)
    (Or.inl (by norm_num))

/-- A decimal digit character is not whitespace. -/
theorem isWhitespace_eq_false_of_isDigit (c : Char) (h : c.isDigit = true) :
    c.isWhitespace = false := by
  by_contra hw
  rw [Bool.not_eq_false] at hw
  simp only [Char.isWhitespace, Bool.or_eq_true, decide_eq_true_eq] at hw
  rcases hw with ((h1 | h1) | h1) | h1 <;> subst h1 <;> exact absurd h (by decide)

/-- Stripping whitespace from a whitespace-free list is the identity. -/
theorem pyTrim_eq_self (l : List Char)
    (h : ∀ c ∈ l, c.isWhitespace = false) : pyTrim l = l := by
  have hdrop : ∀ m : List Char, (∀ c ∈ m, c.isWhitespace = false) →
      m.dropWhile Char.isWhitespace = m := by
    intro m hm
    cases m with
    | nil => rfl
    | cons c t =>
      rw [List.dropWhile_cons_of_neg]
      rw [hm c (List.mem_cons_self c t)]
      simp
  unfold pyTrim
  rw [hdrop l h]
  rw [hdrop l.reverse (by intro c hc; exact h c (List.mem_reverse.mp hc))]
  exact List.reverse_reverse l

/-- Python `int` on a nonempty all-digit string returns the decimal value
of the digits. -/
theorem pyParseInt_digits (ds : List Char) (hne : ds ≠ [])
    (hall : ∀ c ∈ ds, c.isDigit = true) :
    pyParseInt (String.mk ds) = some ((digitsVal ds : Nat) : Int) := by
  unfold pyParseInt
  have htoList : (String.mk ds).toList = ds := rfl
  rw [htoList]
  rw [pyTrim_eq_self ds (fun c hc => isWhitespace_eq_false_of_isDigit c (hall c hc))]
  cases ds with
  | nil => exact absurd rfl hne
  | cons d rest =>
    have hd : d.isDigit = true := hall d (List.mem_cons_self d rest)
    have hdash : ¬ d = '-' := by
      intro h2
      subst h2
      exact absurd hd (by decide)
    have hplus : ¬ d = '+' := by
      intro h2
      subst h2
      exact absurd hd (by decide)
    show (if d = '-' then (pyIntOfDigits? rest).map (fun n => -(Int.ofNat n))
      else if d = '+' then (pyIntOfDigits? rest).map (fun n => Int.ofNat n)
      else (pyIntOfDigits? (d :: rest)).map (fun n => Int.ofNat n)) =
      some ((digitsVal (d :: rest) : Nat) : Int)
    rw [if_neg hdash, if_neg hplus]
    unfold pyIntOfDigits?
    rw [if_pos]
    · rfl
    · refine ⟨by simp, ?_⟩
      rw [List.all_eq_true]
      exact hall

/-- C9.  For every input string, numeric-field parsing strips all
non-digit characters before parsing and defaults to 0 on failure: both
`ensure_integer` and the participants parsing of `parse_activity_details`
return exactly the integer formed by the digit characters of the string
in order (0 when the string contains no digits), and the result is always
nonnegative. -/
theorem ensure_integer_digits (s : String) :
    ensure_integer s = ((digitsVal (s.toList.filter Char.isDigit) : Nat) : Int) ∧
    (s.toList.filter Char.isDigit = [] → ensure_integer s = 0) ∧
    0 ≤ ensure_integer s ∧
    participantsFromText s = ensure_integer s := by
  have hfilter : ∀ c ∈ s.toList.filter Char.isDigit, c.isDigit = true := by
    intro c hc
    exact (List.mem_filter.mp hc).2
  have hmain : ensure_integer s =
      ((digitsVal (s.toList.filter Char.isDigit) : Nat) : Int) := by
    unfold ensure_integer stripNonDigits
    by_cases hnil : s.toList.filter Char.isDigit = []
    · rw [hnil]
      rw [if_neg (by simp)]
      rfl
    · have hne2 : ¬ (String.mk (s.toList.filter Char.isDigit) = "") := by
        intro he
        apply hnil
        have hdata := congrArg String.data he
        simpa using hdata
      rw [if_pos hne2]
      rw [pyParseInt_digits _ hnil hfilter]
  have hpart : participantsFromText s =
      ((digitsVal (s.toList.filter Char.isDigit) : Nat) : Int) := by
    unfold participantsFromText stripNonDigits
    by_cases hnil : s.toList.filter Char.isDigit = []
    · rw [hnil]
      show (match pyParseInt (String.mk []) with
        | some n => n
        | none => 0) = ((digitsVal [] : Nat) : Int)
      rfl
    · rw [pyParseInt_digits _ hnil hfilter]
  refine ⟨hmain, ?_, ?_, ?_⟩
  · intro hnil
    rw [hmain, hnil]
    rfl
  · rw [hmain]
    exact Int.ofNat_nonneg _
  · rw [hmain, hpart]

/-- C4.  For every first-page document, `find_last_page_number` never
throws (it is a total function whose exception paths are the explicit 0
branches): when the last-page navigation link is absent it returns 0;
when the link's href is missing or does not parse as a page number it
returns 0; otherwise it returns the page number parsed from the link. -/
theorem find_last_page_number_spec (soup : Soup) :
    (soup.selectOne last_page_selector = none →
      find_last_page_number soup = 0) ∧
    (∀ link, soup.selectOne last_page_selector = some link →
      (parseLastPageHref (link.attr? "href") = none →
        find_last_page_number soup = 0) ∧
      (∀ n, parseLastPageHref (link.attr? "href") = some n →
        find_last_page_number soup = n)) ∧
    parseLastPageHref none = none := by
  refine ⟨?_, ?_, rfl⟩
  · intro h
    unfold find_last_page_number
    rw [h]
  · intro link hl
    constructor
    · intro h
      unfold find_last_page_number
      rw [hl]
      show (parseLastPageHref (link.attr? "href")).getD 0 = 0
      rw [h]
      rfl
    · intro n h
      unfold find_last_page_number
      rw [hl]
      show (parseLastPageHref (link.attr? "href")).getD 0 = n
      rw [h]
      rfl

/-- Witness for `find_last_page_number_spec`: a document whose last-page
link has href `?page=7` yields last page 7; the parse of that href is
`some 7`. -/
theorem find_last_page_number_spec_witness :
    (Soup.selectOne
        ⟨[(last_page_selector, [⟨"Last", [("href", "?page=7")]⟩])]⟩
        last_page_selector = some ⟨"Last", [("href", "?page=7")]⟩) ∧
    find_last_page_number
      ⟨[(last_page_selector, [⟨"Last", [("href", "?page=7")]⟩])]⟩ = 7 := by
  refine ⟨by decide, ?_⟩
  have h := (find_last_page_number_spec
    ⟨[(last_page_selector, [⟨"Last", [("href", "?page=7")]⟩])]⟩).2.1
    ⟨"Last", [("href", "?page=7")]⟩ (by decide)
  exact h.2 7 (by decide)

/-- Counterexample to C10 as stated: on a document whose pagination link
(matched identically by both selectors) has href `?page=3&sort=asc`,
`get_total_pages` returns 4 while `find_last_page_number` returns 0
(the split on the last `=` yields `asc`, which fails to parse), so the
two analyzers differ: 4 is not 0 + 1. -/
theorem pagination_equiv_counterexample :
    get_total_pages
        ⟨[(pagination_last_selector,
            [⟨"Last", [("href", "?page=3&sort=asc")]⟩]),
          (last_page_selector,
            [⟨"Last", [("href", "?page=3&sort=asc")]⟩])]⟩ = 4 ∧
    find_last_page_number
        ⟨[(pagination_last_selector,
            [⟨"Last", [("href", "?page=3&sort=asc")]⟩]),
          (last_page_selector,
            [⟨"Last", [("href", "?page=3&sort=asc")]⟩])]⟩ + 1 = 1 ∧
    ¬ (get_total_pages
        ⟨[(pagination_last_selector,
            [⟨"Last", [("href", "?page=3&sort=asc")]⟩]),
          (last_page_selector,
            [⟨"Last", [("href", "?page=3&sort=asc")]⟩])]⟩ =
      find_last_page_number
        ⟨[(pagination_last_selector,
            [⟨"Last", [("href", "?page=3&sort=asc")]⟩]),
          (last_page_selector,
            [⟨"Last", [("href", "?page=3&sort=asc")]⟩])]⟩ + 1) := by
  refine ⟨by decide, by decide, by decide⟩

/-- C10 (amended).  The two pagination analyzers agree up to the
indexing convention — `get_total_pages = find_last_page_number + 1` — on
every first-page document in which the two pagination selectors resolve
to the same link (or both to none) and, when a link is present, the two
href-parsing strategies extract the same result from it.  (They can
disagree when the href carries further `=`-bearing query parameters, or
when only one selector matches.) -/
theorem pagination_analyzers_agree (soup : Soup)
    (hsame : soup.selectOne pagination_last_selector =
      soup.selectOne last_page_selector)
    (hhref : ∀ link, soup.selectOne last_page_selector = some link →
      parsePageParam (link.getAttr "href" "") =
        parseLastPageHref (link.attr? "href")) :
    get_total_pages soup = find_last_page_number soup + 1 := by
  unfold get_total_pages find_last_page_number
  rw [hsame]
  cases hsel : soup.selectOne last_page_selector with
  | none => decide
  | some link =>
    show ((parsePageParam (link.getAttr "href" "")).map
        (fun last_page => last_page + 1)).getD 1 =
      (parseLastPageHref (link.attr? "href")).getD 0 + 1
    rw [hhref link hsel]
    cases parseLastPageHref (link.attr? "href") with
    | none => decide
    | some n => rfl

/-- Witness for `pagination_analyzers_agree`: a document where both
selectors match the same link with href `?page=3`; the page count is 4
and the last page index is 3. -/
theorem pagination_analyzers_agree_witness :
    (Soup.selectOne
        ⟨[(pagination_last_selector, [⟨"Last", [("href", "?page=3")]⟩]),
          (last_page_selector, [⟨"Last", [("href", "?page=3")]⟩])]⟩
        pagination_last_selector =
      Soup.selectOne
        ⟨[(pagination_last_selector, [⟨"Last", [("href", "?page=3")]⟩]),
          (last_page_selector, [⟨"Last", [("href", "?page=3")]⟩])]⟩
        last_page_selector) ∧
    get_total_pages
        ⟨[(pagination_last_selector, [⟨"Last", [("href", "?page=3")]⟩]),
          (last_page_selector, [⟨"Last", [("href", "?page=3")]⟩])]⟩ =
      find_last_page_number
        ⟨[(pagination_last_selector, [⟨"Last", [("href", "?page=3")]⟩]),
          (last_page_selector, [⟨"Last", [("href", "?page=3")]⟩])]⟩ + 1 := by
  refine ⟨by decide, ?_⟩
  apply pagination_analyzers_agree
  · decide
  · intro link hl
    have he : some link = some (⟨"Last", [("href", "?page=3")]⟩ : Element) := by
      rw [← hl]
      decide
    injection he with he2
    subst he2
    decide

/-- The staleness order propagates NULL backwards: if a row ordered
after has a NULL timestamp, the row ordered before has one too. -/
theorem stalenessLE_none_right (a b : SectionRow) (h : stalenessLE a b)
    (hb : b.last_scraped = none) : a.last_scraped = none := by
  unfold stalenessLE stalenessLEb at h
  cases ha : a.last_scraped with
  | none => rfl
  | some x =>
    rw [ha, hb] at h
    exact Bool.noConfusion h

/-- On two non-NULL timestamps the staleness order is the timestamp
order. -/
theorem stalenessLE_some_some (a b : SectionRow) (h : stalenessLE a b)
    (x y : Nat) (ha : a.last_scraped = some x) (hb : b.last_scraped = some y) :
    x ≤ y := by
  unfold stalenessLE stalenessLEb at h
  rw [ha, hb] at h
  exact of_decide_eq_true h

/-- Both scheduling results are pairwise ordered by staleness. -/
theorem pairwise_staleness_sort (l : List SectionRow) (limit : Option Nat) :
    List.Pairwise stalenessLE
      (match limit with
       | some k => (List.insertionSort stalenessLE l).take k
       | none => List.insertionSort stalenessLE l) := by
  cases limit with
  | none => exact List.sorted_insertionSort stalenessLE l
  | some k =>
    exact List.Pairwise.sublist (List.take_sublist k _)
      (List.sorted_insertionSort stalenessLE l)

/-- C6.  Both scheduling queries return entities ordered by ascending
staleness: in the returned list, whenever a later entry has a NULL
`last_scraped` every earlier entry has a NULL one too (so NULL entries
form a prefix, before every non-NULL entry), and non-NULL timestamps are
non-decreasing (oldest first); `get_sections_to_scrape` moreover returns
only sections with `can_scrape_activities = TRUE`. -/
theorem scheduling_orders_by_staleness (rows : List SectionRow)
    (limit : Option Nat) :
    (∀ (i j : Fin (get_sections_to_scrape rows limit).length), i < j →
      (((get_sections_to_scrape rows limit).get j).last_scraped = none →
        ((get_sections_to_scrape rows limit).get i).last_scraped = none) ∧
      (∀ x y,
        ((get_sections_to_scrape rows limit).get i).last_scraped = some x →
        ((get_sections_to_scrape rows limit).get j).last_scraped = some y →
        x ≤ y)) ∧
    (∀ s ∈ get_sections_to_scrape rows limit,
      s.can_scrape_activities = true) ∧
    (∀ (i j : Fin (get_sections_by_last_scraped rows limit).length), i < j →
      (((get_sections_by_last_scraped rows limit).get j).last_scraped = none →
        ((get_sections_by_last_scraped rows limit).get i).last_scraped = none) ∧
      (∀ x y,
        ((get_sections_by_last_scraped rows limit).get i).last_scraped = some x →
        ((get_sections_by_last_scraped rows limit).get j).last_scraped = some y →
        x ≤ y)) := by
  have hp1 : List.Pairwise stalenessLE (get_sections_to_scrape rows limit) := by
    unfold get_sections_to_scrape
    exact pairwise_staleness_sort _ limit
  have hp2 : List.Pairwise stalenessLE
      (get_sections_by_last_scraped rows limit) := by
    unfold get_sections_by_last_scraped
    exact pairwise_staleness_sort _ limit
  refine ⟨?_, ?_, ?_⟩
  · intro i j hij
    have hrel := List.pairwise_iff_get.mp hp1 i j hij
    exact ⟨fun hj => stalenessLE_none_right _ _ hrel hj,
      fun x y hx hy => stalenessLE_some_some _ _ hrel x y hx hy⟩
  · intro s hs
    have hmem : s ∈ rows.filter (fun s => s.can_scrape_activities) := by
      unfold get_sections_to_scrape at hs
      cases limit with
      | none =>
        exact (List.perm_insertionSort stalenessLE _).mem_iff.mp hs
      | some k =>
        exact (List.perm_insertionSort stalenessLE _).mem_iff.mp
          (List.mem_of_mem_take hs)
    exact (List.mem_filter.mp hmem).2
  · intro i j hij
    have hrel := List.pairwise_iff_get.mp hp2 i j hij
    exact ⟨fun hj => stalenessLE_none_right _ _ hrel hj,
      fun x y hx hy => stalenessLE_some_some _ _ hrel x y hx hy⟩

/-- Witness for `scheduling_orders_by_staleness`: sorting the two
crawlable sections last refreshed at times 9 and 4 puts time 4 first,
and the theorem yields 4 <= 9 at indices 0 < 1. -/
theorem scheduling_orders_by_staleness_witness :
    (4 : Nat) <= 9 ∧
    ((get_sections_to_scrape
        [⟨1, true, some 9⟩, ⟨2, true, some 4⟩] none).get
      ⟨0, by decide⟩).last_scraped = some 4 := by
  constructor
  · have h := (scheduling_orders_by_staleness
      [⟨1, true, some 9⟩, ⟨2, true, some 4⟩] none).1
      ⟨0, by decide⟩ ⟨1, by decide⟩ (by decide)
    exact h.2 4 9 (by decide) (by decide)
  · decide

/-- On an `event_slug` match the updated row is exactly the incoming
record. -/
theorem updateRow_eq_of_slug (row r : ActivityRow)
    (h : row.event_slug = r.event_slug) : updateRow row r = r := by
  unfold updateRow
  rw [h]

/-- C7.  Upsert is idempotent: on a table whose unique-key invariant
holds for the record's natural key (at most one row with that
`event_slug`), applying `insert_activity` with the same record twice
equals applying it once; after the upsert exactly one stored row has
that `event_slug`; that row equals the incoming record on every mutable
field with the identity field unchanged (final-write-wins); and rows
with other keys survive untouched. -/
theorem insert_activity_idempotent (t : List ActivityRow) (r : ActivityRow)
    (huniq : t.countP (slugMatch r.event_slug) <= 1) :
    insert_activity (insert_activity t r) r = insert_activity t r ∧
    (insert_activity t r).countP (slugMatch r.event_slug) = 1 ∧
    (∀ row ∈ insert_activity t r, row.event_slug = r.event_slug → row = r) ∧
    (∀ row ∈ t, row.event_slug ≠ r.event_slug → row ∈ insert_activity t r) := by
  have hself : slugMatch r.event_slug r = true := by
    unfold slugMatch
    exact beq_self_eq_true _
  have hupd_slug : ∀ row : ActivityRow,
      (updateRow row r).event_slug = row.event_slug := fun _ => rfl
  by_cases hany : t.any (slugMatch r.event_slug) = true
  · -- conflict: the stored row is overwritten in place
    have he : insert_activity t r = t.map (fun row =>
        if slugMatch r.event_slug row then updateRow row r else row) := by
      unfold insert_activity
      rw [if_pos hany]
    have hf_pres : ∀ row : ActivityRow,
        slugMatch r.event_slug
          (if slugMatch r.event_slug row then updateRow row r else row) =
        slugMatch r.event_slug row := by
      intro row
      by_cases hrow : slugMatch r.event_slug row = true
      · rw [if_pos hrow, hrow]
        unfold slugMatch at *
        rw [hupd_slug]
        exact hrow
      · rw [if_neg hrow]
    have hany2 : (insert_activity t r).any (slugMatch r.event_slug) = true := by
      rw [he]
      obtain ⟨a, ha, hpa⟩ := List.any_eq_true.mp hany
      refine List.any_eq_true.mpr ⟨_, List.mem_map_of_mem _ ha, ?_⟩
      rw [hf_pres a]
      exact hpa
    refine ⟨?_, ?_, ?_, ?_⟩
    · unfold insert_activity
      rw [if_pos hany, if_pos (he ▸ hany2)]
      rw [List.map_map]
      apply List.map_congr_left
      intro row _
      show (if slugMatch r.event_slug
          (if slugMatch r.event_slug row then updateRow row r else row) then
            updateRow
              (if slugMatch r.event_slug row then updateRow row r else row) r
          else
            (if slugMatch r.event_slug row then updateRow row r else row)) =
        (if slugMatch r.event_slug row then updateRow row r else row)
      by_cases hrow : slugMatch r.event_slug row = true
      · simp only [if_pos hrow]
        have hpres : slugMatch r.event_slug (updateRow row r) = true := hrow
        simp only [if_pos hpres]
        rfl
      · simp only [if_neg hrow]
    · rw [he, List.countP_map]
      have hcong : t.countP
          ((slugMatch r.event_slug) ∘ (fun row =>
            if slugMatch r.event_slug row then updateRow row r else row)) =
          t.countP (slugMatch r.event_slug) := by
        apply List.countP_congr
        intro row _
        show slugMatch r.event_slug
            (if slugMatch r.event_slug row then updateRow row r else row) =
            true ↔ slugMatch r.event_slug row = true
        rw [hf_pres row]
      rw [hcong]
      have hpos : 0 < t.countP (slugMatch r.event_slug) :=
        List.countP_pos_iff.mpr (List.any_eq_true.mp hany)
      omega
    · rw [he]
      intro row' hrow' hslug
      obtain ⟨row, hrow, rfl⟩ := List.mem_map.mp hrow'
      by_cases hm : slugMatch r.event_slug row = true
      · rw [if_pos hm] at hslug ⊢
        exact updateRow_eq_of_slug row r (by
          unfold slugMatch at hm
          exact eq_of_beq hm)
      · rw [if_neg hm] at hslug ⊢
        exfalso
        apply hm
        unfold slugMatch
        rw [hslug]
        exact beq_self_eq_true _
    · intro row hrow hne
      rw [he]
      have hm : slugMatch r.event_slug row = false := by
        rw [Bool.eq_false_iff]
        intro hc
        exact hne (eq_of_beq hc)
      have : (if slugMatch r.event_slug row then updateRow row r else row)
          = row := by rw [hm]; rfl
      rw [← this]
      exact List.mem_map_of_mem _ hrow
  · -- no conflict: the record is appended
    have he : insert_activity t r = t ++ [r] := by
      unfold insert_activity
      rw [if_neg hany]
    have hzero : t.countP (slugMatch r.event_slug) = 0 := by
      rw [List.countP_eq_zero]
      intro a ha
      have hfalse : t.any (slugMatch r.event_slug) = false := by
        rw [Bool.eq_false_iff]
        exact hany
      have := List.any_eq_false.mp hfalse a ha
      simpa using this
    have hnomem : ∀ a ∈ t, slugMatch r.event_slug a = false := by
      intro a ha
      have hfalse : t.any (slugMatch r.event_slug) = false := by
        rw [Bool.eq_false_iff]
        exact hany
      have := List.any_eq_false.mp hfalse a ha
      simpa using this
    refine ⟨?_, ?_, ?_, ?_⟩
    · rw [he]
      unfold insert_activity
      have hany2 : (t ++ [r]).any (slugMatch r.event_slug) = true := by
        refine List.any_eq_true.mpr ⟨r, ?_, hself⟩
        exact List.mem_append_right t (List.mem_singleton.mpr rfl)
      rw [if_pos hany2, List.map_append]
      congr 1
      · have hmap : List.map (fun row =>
            if slugMatch r.event_slug row then updateRow row r else row) t =
            List.map id t := by
          apply List.map_congr_left
          intro row hrow
          show (if slugMatch r.event_slug row then updateRow row r else row) =
            id row
          rw [hnomem row hrow]
          rfl
        rw [hmap, List.map_id]
      · show [if slugMatch r.event_slug r then updateRow r r else r] = [r]
        rw [hself]
        show [updateRow r r] = [r]
        rw [updateRow_eq_of_slug r r rfl]
    · rw [he, List.countP_append, hzero]
      show 0 + List.countP (slugMatch r.event_slug) [r] = 1
      rw [List.countP_singleton, hself]
      rfl
    · rw [he]
      intro row hrow hslug
      rcases List.mem_append.mp hrow with hl | hr
      · exfalso
        have := hnomem row hl
        unfold slugMatch at this
        rw [hslug] at this
        rw [beq_self_eq_true] at this
        exact Bool.noConfusion this
      · exact List.mem_singleton.mp hr
    · intro row hrow _
      rw [he]
      exact List.mem_append_left _ hrow

/-- Witness for `insert_activity_idempotent`: upserting a concrete
record into the empty table twice yields the same single-row table as
upserting it once. -/
theorem insert_activity_idempotent_witness :
    ([] : List ActivityRow).countP
      (slugMatch "boat-party-20885") <= 1 ∧
    (insert_activity []
        ⟨"boat-party-20885", "u", "Boat Party", "d", 738832, none, false,
          none, none, 160, none, true⟩).countP
      (slugMatch "boat-party-20885") = 1 := by
  constructor
  · decide
  · exact (insert_activity_idempotent []
      ⟨"boat-party-20885", "u", "Boat Party", "d", 738832, none, false,
        none, none, 160, none, true⟩ (by decide)).2.1

/-- C8 counterexample.  A document with the online marker whose platform
span text is empty yields city `Location unknown` — an "unknown" value —
rather than the platform name or `Online`, because `ensure_value`
replaces the empty cleaned platform text with the default
`Location unknown`. -/
theorem extract_location_online_counterexample :
    extract_location id ⟨true, some [""], none⟩ =
      ("Location unknown", "Online") ∧
    strContains (pyLower (extract_location id ⟨true, some [""], none⟩).1)
      "unknown" = true := by
  exact ⟨by decide, by decide⟩

/-- C8 (amended).  For every document containing the online-activity
marker: the country value is always `Online`; the city falls back to
`Online` when the platform spans are absent (navigation error) or empty;
and when a platform span is present the city is its cleaned text passed
through `ensure_value` — the platform name itself whenever that cleaned
text is nonempty and free of `not found`/`unknown` (case-insensitively),
and the default `Location unknown` otherwise. -/
theorem extract_location_online (unescape : String → String)
    (d : LocationDoc) (hmark : d.online_icon = true) :
    (extract_location unescape d).2 = "Online" ∧
    (d.platform_spans = none → (extract_location unescape d).1 = "Online") ∧
    (d.platform_spans = some [] → (extract_location unescape d).1 = "Online") ∧
    (∀ t rest, d.platform_spans = some (t :: rest) →
      (extract_location unescape d).1 =
        ensure_value (some (clean_text unescape t)) "Location unknown") ∧
    (∀ t rest, d.platform_spans = some (t :: rest) →
      pyTrim (clean_text unescape t).toList ≠ [] →
      (strContains (pyLower (clean_text unescape t)) "not found" ||
        strContains (pyLower (clean_text unescape t)) "unknown") = false →
      (extract_location unescape d).1 = clean_text unescape t) := by
  have hOnlineCity : ensure_value (some "Online") "Location unknown" =
      "Online" := by decide
  have hOnlineCountry : ensure_value (some "Online") "Country unknown" =
      "Online" := by decide
  cases hps : d.platform_spans with
  | none =>
    have hv : extract_location unescape d =
        (ensure_value (some "Online") "Location unknown",
         ensure_value (some "Online") "Country unknown") := by
      unfold extract_location
      rw [hmark, hps]
      rfl
    refine ⟨?_, ?_, ?_, ?_, ?_⟩
    · rw [hv]
      exact hOnlineCountry
    · intro _
      rw [hv]
      exact hOnlineCity
    · intro h
      exact Option.noConfusion h
    · intro t rest h
      exact Option.noConfusion h
    · intro t rest h _ _
      exact Option.noConfusion h
  | some spans =>
    cases spans with
    | nil =>
      have hv : extract_location unescape d =
          (ensure_value (some "Online") "Location unknown",
           ensure_value (some "Online") "Country unknown") := by
        unfold extract_location
        rw [hmark, hps]
        rfl
      refine ⟨?_, ?_, ?_, ?_, ?_⟩
      · rw [hv]
        exact hOnlineCountry
      · intro h
        exact Option.noConfusion h
      · intro _
        rw [hv]
        exact hOnlineCity
      · intro t rest h
        simp at h
      · intro t rest h _ _
        simp at h
    | cons t0 rest0 =>
      have hv : extract_location unescape d =
          (ensure_value (some (clean_text unescape t0)) "Location unknown",
           ensure_value (some "Online") "Country unknown") := by
        unfold extract_location
        rw [hmark, hps]
        rfl
      refine ⟨?_, ?_, ?_, ?_, ?_⟩
      · rw [hv]
        exact hOnlineCountry
      · intro h
        exact Option.noConfusion h
      · intro h
        simp at h
      · intro t rest h
        injection h with h2
        injection h2 with h3 h4
        subst h3
        rw [hv]
      · intro t rest h htrim hcontains
        injection h with h2
        injection h2 with h3 h4
        subst h3
        rw [hv]
        show ensure_value (some (clean_text unescape t0)) "Location unknown" =
          clean_text unescape t0
        unfold ensure_value
        show (if pyTrim (clean_text unescape t0).toList = [] then
            "Location unknown"
          else if (clean_text unescape t0).toList.length = 0 then
            "Location unknown"
          else if (strContains (pyLower (clean_text unescape t0)) "not found" ||
              strContains (pyLower (clean_text unescape t0)) "unknown") = true
            then "Location unknown"
          else clean_text unescape t0) = clean_text unescape t0
        rw [if_neg htrim]
        have hlen : ¬ ((clean_text unescape t0).toList.length = 0) := by
          intro h0
          apply htrim
          have hnil : (clean_text unescape t0).toList = [] :=
            List.eq_nil_of_length_eq_zero h0
          rw [hnil]
          rfl
        rw [if_neg hlen]
        have hc3 : ¬ ((strContains (pyLower (clean_text unescape t0))
            "not found" ||
            strContains (pyLower (clean_text unescape t0)) "unknown") =
            true) := by
          rw [hcontains]
          exact Bool.noConfusion
        rw [if_neg hc3]

/-- Witness for `extract_location_online`: an online document with
platform span `Zoom` yields city `Zoom` and country `Online`. -/
theorem extract_location_online_witness :
    (extract_location id ⟨true, some ["Zoom"], none⟩).2 = "Online" ∧
    (extract_location id ⟨true, some ["Zoom"], none⟩).1 = clean_text id "Zoom" ∧
    clean_text id "Zoom" = "Zoom" := by
  refine ⟨?_, ?_, by decide⟩
  · exact (extract_location_online id ⟨true, some ["Zoom"], none⟩ rfl).1
  · exact (extract_location_online id ⟨true, some ["Zoom"], none⟩ rfl).2.2.2.2
      "Zoom" [] rfl (by decide) (by decide)

/-- A response that passes `_check_response` yields its content. -/
theorem get_with_retry_ok (r : HttpResponse)
    (h : check_response r = .ok ()) :
    get_with_retry r = .ok (responseContent r) := by
  unfold get_with_retry
  rw [h]

/-- `get_page_content` of a passing response yields the same content. -/
theorem get_page_content_ok (r : HttpResponse)
    (h : check_response r = .ok ()) :
    get_page_content r = .ok (responseContent r) := by
  unfold get_page_content
  rw [get_with_retry_ok r h]

/-- A 404 response passes `_check_response` (it is neither 429 nor a
Cloudflare 403). -/
theorem check_response_404 (r : HttpResponse) (h : r.status = 404) :
    check_response r = .ok () := by
  unfold check_response
  have h1 : ¬ r.status = 429 := by
    rw [h]
    decide
  have h2 : ¬ (r.status = 403 ∧
      strContains (pyLower r.body) "cloudflare" = true) := by
    intro hc
    rw [h] at hc
    exact absurd hc.1 (by decide)
  rw [if_neg h1, if_neg h2]

/-- The 404 path of `get_with_retry`: the explicit empty result, not an
error. -/
theorem get_with_retry_404 (r : HttpResponse) (h : r.status = 404) :
    get_with_retry r = .ok "" := by
  rw [get_with_retry_ok r (check_response_404 r h)]
  unfold responseContent
  rw [if_neg (by rw [h]; decide), if_pos h]

/-- The page loop over pages that fetch and parse successfully
accumulates each page's records in order. -/
theorem extract_chunk_go_good {A : Type} (respOf : Nat → HttpResponse)
    (soupOf : String → Soup) (extractPage : Soup → List A) :
    ∀ (good tail : List Nat) (acc : List A),
      (∀ q ∈ good, check_response (respOf q) = .ok () ∧
        hasHtmlElement (responseContent (respOf q)) = true) →
      extract_chunk_go respOf soupOf extractPage (good ++ tail) acc =
        extract_chunk_go respOf soupOf extractPage tail
          (acc ++ (good.map (fun q =>
            extractPage (soupOf (responseContent (respOf q))))).flatten) := by
  intro good
  induction good with
  | nil =>
    intro tail acc _
    simp
  | cons q good ih =>
    intro tail acc hgood
    have hq := hgood q (List.mem_cons_self q good)
    have hfetch : get_page_content (respOf q) =
        .ok (responseContent (respOf q)) := get_page_content_ok _ hq.1
    have hparse : parse_html soupOf (responseContent (respOf q)) =
        .ok (soupOf (responseContent (respOf q))) := by
      unfold parse_html
      rw [if_pos hq.2]
    rw [List.cons_append]
    simp only [extract_chunk_go, hfetch, hparse]
    rw [ih tail _ (fun x hx => hgood x (List.mem_cons_of_mem q hx))]
    rw [List.map_cons, List.flatten_cons, List.append_assoc]

/-- Hitting a 404 page stops the loop: the empty 404 body fails
`parse_html`, the chunk-level handler returns the accumulated records. -/
theorem extract_chunk_go_404 {A : Type} (respOf : Nat → HttpResponse)
    (soupOf : String → Soup) (extractPage : Soup → List A)
    (p : Nat) (rest : List Nat) (acc : List A)
    (h404 : (respOf p).status = 404) :
    extract_chunk_go respOf soupOf extractPage (p :: rest) acc = acc := by
  have hfetch : get_page_content (respOf p) = .ok "" := by
    unfold get_page_content
    rw [get_with_retry_404 _ h404]
  have hparse : parse_html soupOf "" = .error .scraping := by
    unfold parse_html
    rw [if_neg (by decide)]
  simp only [extract_chunk_go, hfetch, hparse]

/-- C2.  For every chunk `(start_page, end_page)` whose pages before `p`
fetch and parse normally, when the fetch of page `p` in the chunk
returns 404 the fetch yields the explicit empty result (`ok ""`, not an
error), and the chunk's page loop terminates returning exactly the
records extracted from the pages before `p` — the prior pages' records
are kept, no error is raised (the model is total: the chunk-level
`except` turns any raised error into the accumulated records). -/
theorem chunk_404_terminates {A : Type} (respOf : Nat → HttpResponse)
    (soupOf : String → Soup) (extractPage : Soup → List A)
    (start_page end_page p : Nat)
    (hsp : start_page ≤ p) (hpe : p ≤ end_page)
    (h404 : (respOf p).status = 404)
    (hprev : ∀ q, start_page ≤ q → q < p →
      check_response (respOf q) = .ok () ∧
      hasHtmlElement (responseContent (respOf q)) = true) :
    get_with_retry (respOf p) = .ok "" ∧
    extract_activities_chunk respOf soupOf extractPage start_page end_page =
      ((List.range' start_page (p - start_page)).map (fun q =>
        extractPage (soupOf (responseContent (respOf q))))).flatten := by
  refine ⟨get_with_retry_404 _ h404, ?_⟩
  unfold extract_activities_chunk
  have hsplit : List.range' start_page (end_page + 1 - start_page) =
      List.range' start_page (p - start_page) ++
      List.range' p (end_page + 1 - p) := by
    have h := List.range'_append start_page (p - start_page)
      (end_page + 1 - p) 1
    have e1 : start_page + 1 * (p - start_page) = p := by omega
    have e2 : (end_page + 1 - p) + (p - start_page) =
        end_page + 1 - start_page := by omega
    rw [e1, e2] at h
    exact h.symm
  have e3 : end_page + 1 - p = (end_page - p) + 1 := by omega
  rw [hsplit, e3, List.range'_succ]
  rw [extract_chunk_go_good respOf soupOf extractPage _ _ [] ?hgood]
  case hgood =>
    intro q hq
    have hb := List.mem_range'_1.mp hq
    exact hprev q hb.1 (by omega)
  rw [extract_chunk_go_404 respOf soupOf extractPage p _ _ h404]
  rw [List.nil_append]

/-- Witness for `chunk_404_terminates`: pages 0-4 where page 2 is a 404
and the others are normal pages each yielding one record; the chunk
returns the two records of pages 0 and 1. -/
theorem chunk_404_terminates_witness :
    ((fun q => if q = 2 then (⟨404, ""⟩ : HttpResponse)
        else ⟨200, "<html></html>"⟩) 2).status = 404 ∧
    extract_activities_chunk
      (fun q => if q = 2 then (⟨404, ""⟩ : HttpResponse)
        else ⟨200, "<html></html>"⟩)
      (fun _ => (⟨[]⟩ : Soup)) (fun _ => ([0] : List Nat)) 0 4 = [0, 0] := by
  refine ⟨by decide, ?_⟩
  have hprev : ∀ q, 0 ≤ q → q < 2 →
      check_response ((fun q => if q = 2 then (⟨404, ""⟩ : HttpResponse)
        else ⟨200, "<html></html>"⟩) q) = .ok () ∧
      hasHtmlElement (responseContent
        ((fun q => if q = 2 then (⟨404, ""⟩ : HttpResponse)
          else ⟨200, "<html></html>"⟩) q)) = true := by
    intro q _ hq2
    interval_cases q
    · exact ⟨rfl, by decide⟩
    · exact ⟨rfl, by decide⟩
  have h := (chunk_404_terminates
    (fun q => if q = 2 then (⟨404, ""⟩ : HttpResponse)
      else ⟨200, "<html></html>"⟩)
    (fun _ => (⟨[]⟩ : Soup)) (fun _ => ([0] : List Nat)) 0 4 2
    (by omega) (by omega) (by decide) hprev).2
  rw [h]
  decide

/-- The fields of a record the pydantic model construction accepts: the
valid flag is the default `True`, the dates are the passed dates, and
the future flag is recomputed from `start_date`. -/
theorem mkActivityModel_fields
    {isHttpUrl : String → Bool} {today : Nat}
    {event_slug url title description : String} {start_date : Nat}
    {end_date : Option Nat} {city country_code : Option String}
    {participants : Int} {activity_type : Option String}
    {ifv : Bool} {organisers causes sdgs objectives : List String}
    {rec : Activity}
    (h : mkActivityModel isHttpUrl today event_slug url title description
      start_date end_date city country_code participants activity_type ifv
      organisers causes sdgs objectives = some rec) :
    rec.is_valid = true ∧ rec.start_date = start_date ∧
    rec.end_date = end_date ∧
    rec.is_future_event = decide (today < start_date) := by
  unfold mkActivityModel at h
  split at h
  · injection h with h2
    subst h2
    exact ⟨rfl, rfl, rfl, rfl⟩
  · exact Option.noConfusion h

/-- C3 counterexample.  A detail document in which the required date
field is missing (no date selector matches) yields a record whose valid
flag is TRUE — not false, as the claim states — with `start_date`
silently defaulted to the scrape day. -/
theorem parse_activity_details_counterexample :
    (Soup.select ⟨[]⟩ sel_dates_primary = [] ∧
      Soup.select ⟨[]⟩ sel_dates_fallback = []) ∧
    ((parse_activity_details (fun _ => true) (fun _ _ => none) 738832 []
        ⟨[]⟩ "https://x" "boat-party-20885").map
      (fun rec => (rec.is_valid, rec.start_date))) = some (true, 738832) := by
  exact ⟨⟨rfl, rfl⟩, by decide⟩

/-- C3 (amended).  For every detail-page document in which the required
date field is missing (both date selectors match nothing), record
extraction never throws (the embedding is total — the caught-exception
path is the `none` result), the missing date does not drop the record
(only a pydantic validation failure on other fields can yield `none`),
and whenever a record is produced its `start_date` and `end_date` are
silently defaulted to the scrape day and its valid flag REMAINS TRUE —
the code never forces `valid=false`. -/
theorem parse_activity_details_missing_date (isHttpUrl : String → Bool)
    (strptime : String → String → Option Nat) (today : Nat)
    (country_mapping : List (String × String))
    (soup : Soup) (url event_slug : String)
    (hd1 : soup.select sel_dates_primary = [])
    (hd2 : soup.select sel_dates_fallback = []) :
    ∀ rec, parse_activity_details isHttpUrl strptime today country_mapping
        soup url event_slug = some rec →
      rec.is_valid = true ∧ rec.start_date = today ∧
      rec.end_date = some today ∧ rec.is_future_event = false := by
  intro rec h
  unfold parse_activity_details at h
  simp only [hd1, hd2] at h
  have hf := mkActivityModel_fields h
  refine ⟨hf.1, hf.2.1, hf.2.2.1, ?_⟩
  rw [hf.2.2.2]
  simp

/-- Witness for `parse_activity_details_missing_date`: on the empty
document (no selector matches at all) the parser returns a record, and
the theorem gives `is_valid = true` for it. -/
theorem parse_activity_details_missing_date_witness :
    Soup.select (⟨[]⟩ : Soup) sel_dates_primary = [] ∧
    ∃ rec, parse_activity_details (fun _ => true) (fun _ _ => none) 738832 []
        (⟨[]⟩ : Soup) "https://x" "boat-party-20885" = some rec ∧
      rec.is_valid = true ∧ rec.start_date = 738832 := by
  refine ⟨rfl, ?_⟩
  have he : parse_activity_details (fun _ => true) (fun _ _ => none) 738832 []
      (⟨[]⟩ : Soup) "https://x" "boat-party-20885" =
      some
        { event_slug := "boat-party-20885"
          url := "https://x"
          title := "Unknown Activity"
          description := "No description available"
          start_date := 738832
          end_date := some 738832
          city := some "Unknown"
          country_code := some "XX"
          participants := 0
          activity_type := none
          is_future_event := false
          organisers := []
          causes := []
          sdgs := []
          objectives := []
          is_valid := true } := by decide
  refine ⟨_, he, ?_, ?_⟩
  · exact (parse_activity_details_missing_date (fun _ => true)
      (fun _ _ => none) 738832 [] (⟨[]⟩ : Soup) "https://x"
      "boat-party-20885" rfl rfl _ he).1
  · exact (parse_activity_details_missing_date (fun _ => true)
      (fun _ _ => none) 738832 [] (⟨[]⟩ : Soup) "https://x"
      "boat-party-20885" rfl rfl _ he).2.1

end ESN
